import Mathlib

/-!
Verification of the `fly-lab/agents` MCP client manager and related data
model, as a shallow embedding in Lean 4.

The embedding follows `packages/agents/src/mcp/client.ts`,
`packages/agents/src/ai-types.ts`, and
`packages/agents/src/migrations/003_create_cf_agents_schedules.ts`.

JavaScript records keyed by strings (`Record<string, T>`) are modelled as
association lists `List (String × T)`; plain string keys preserve insertion
order in JS, which the association list models positionally.  `nanoid(8)`
(an external library) is modelled as an explicitly supplied token, and
`MCPClientConnection.init` (whose source file is not part of the reviewed
tree) is modelled as an explicit outcome oracle passed to `connect`.
-/

namespace Agents

/-- Lookup in a JS record modelled as an association list
(`record[key]`, yielding `undefined` as `none`). -/
def recGet {α : Type} (l : List (String × α)) (k : String) : Option α :=
  match l with
  | [] => none
  | (k', v) :: rest => if k' = k then some v else recGet rest k

/-- JS record assignment `record[key] = v`: replaces the value in place when
the key exists (keeping its position, as JS does for string keys), otherwise
appends the new key at the end. -/
def setEntry {α : Type} (l : List (String × α)) (k : String) (v : α) :
    List (String × α) :=
  match l with
  | [] => [(k, v)]
  | (k', v') :: rest =>
      if k' = k then (k, v) :: rest else (k', v') :: setEntry rest k v

/-- JS `delete record[key]`: removes the entry with the given key. -/
def eraseEntry {α : Type} (l : List (String × α)) (k : String) :
    List (String × α) :=
  match l with
  | [] => []
  | (k', v') :: rest =>
      if k' = k then rest else (k', v') :: eraseEntry rest k

/-- JS `Object.fromEntries`: duplicated keys keep the position of their first
occurrence and the value of their last occurrence. -/
def jsFromEntries {α : Type} (l : List (String × α)) : List (String × α) :=
  l.foldl (fun acc p => setEntry acc p.1 p.2) []

/-- Removal of the first occurrence of `pat` in `s`, substituting `rep`:
the semantics of JS `String.prototype.replace` with a string pattern
(only the first match is replaced). -/
def listReplaceFirst (s pat rep : List Char) : List Char :=
  match s with
  | [] => if pat.isPrefixOf ([] : List Char) then rep else []
  | c :: rest =>
      if pat.isPrefixOf (c :: rest) then rep ++ (c :: rest).drop pat.length
      else c :: listReplaceFirst rest pat rep

/-- JS `s.replace(pat, rep)` with a string (non-regex) pattern. -/
def jsReplaceFirst (s pat rep : String) : String :=
  String.mk (listReplaceFirst s.data pat.data rep.data)

/-- JS `s.startsWith(p)`. -/
def strStartsWith (s p : String) : Bool :=
  p.data.isPrefixOf s.data

/-- Split a character list at every occurrence of `sep` (the semantics of
JS `String.prototype.split` with a one-character separator): splitting the
empty list gives one empty piece, and adjacent separators give empty
pieces. -/
def splitChar (sep : Char) (s : List Char) : List (List Char) :=
  match s with
  | [] => [[]]
  | c :: rest =>
      if c = sep then [] :: splitChar sep rest
      else
        match splitChar sep rest with
        | [] => [[c]]
        | x :: xs => (c :: x) :: xs

/-- Split a character list at the first occurrence of `sep`: the part
before it, and (when the separator occurs) the whole remainder after it. -/
def splitFirstChar (sep : Char) (s : List Char) : List Char × Option (List Char) :=
  match s with
  | [] => ([], none)
  | c :: rest =>
      if c = sep then ([], some rest)
      else
        let r := splitFirstChar sep rest
        (c :: r.1, r.2)

/-- The key/value pairs of a URL's query string — the part after the first
`?` of the part before the first `#` — in order, as `URLSearchParams`
exposes them: segments split on `&`, empty segments skipped, each segment
split at its first `=` (a segment without `=` has the empty value).
Percent-decoding is not modelled; no verified claim depends on it. -/
def queryPairs (url : String) : List (String × String) :=
  let beforeFrag := (splitFirstChar '#' url.data).1
  let qs := ((splitFirstChar '?' beforeFrag).2).getD []
  ((splitChar '&' qs).filter (fun seg => seg ≠ [])).map (fun seg =>
    let kv := splitFirstChar '=' seg
    (String.mk kv.1, String.mk (kv.2.getD [])))

/-- JS `new URL(url).searchParams.get(name)`: the value of the first
occurrence of `name`, or `none`. -/
def searchParamGet (url nm : String) : Option String :=
  ((queryPairs url).find? (fun p => p.1 = nm)).map (fun p => p.2)

/-- JS falsiness of a `string | null` value: `null` and the empty string are
falsy. -/
def optFalsy (o : Option String) : Bool :=
  match o with
  | none => true
  | some s => s = ""

/-! ## The MCP data model (`mcp/client.ts` and the MCP SDK types it uses) -/

/-- Connection states of an `MCPClientConnection`
(spec section 4.H: `{connecting, authenticating, ready, failed}`). -/
inductive ConnState where
  | connecting
  | authenticating
  | ready
  | failed
deriving DecidableEq, Repr

/-- The OAuth client provider attached to a transport.  `authUrl` and
`redirectUrl` model the values the provider reports when the manager reads
them after `init`; `redirectUrl` carries the string form of the provider's
URL object. -/
structure AuthProvider where
  serverId : String := ""
  clientId : Option String := none
  authUrl : Option String := none
  redirectUrl : Option String := none
deriving DecidableEq, Repr

/-- Transport options: only the overridden `authProvider` is relevant to the
manager (`MCPTransportOptions`). -/
structure TransportOptions where
  authProvider : Option AuthProvider := none
deriving DecidableEq, Repr

/-- Connection options as stored on a connection
(`{client: …, transport: …}`); the SDK client configuration is opaque to
every verified claim and is omitted. -/
structure ConnOptions where
  transport : TransportOptions := {}
deriving DecidableEq, Repr

/-- The underlying MCP SDK client handle; the manager only ever calls
`close()` on it, modelled by the `closed` flag. -/
structure MCPClient where
  closed : Bool := false
deriving DecidableEq, Repr

/-- An MCP tool as discovered from a server (the fields the manager reads). -/
structure Tool where
  name : String
  description : Option String := none
  inputSchema : String := ""
deriving DecidableEq, Repr

/-- An MCP prompt as discovered from a server. -/
structure Prompt where
  name : String
  description : Option String := none
deriving DecidableEq, Repr

/-- An MCP resource as discovered from a server. -/
structure Resource where
  uri : String
  name : String := ""
deriving DecidableEq, Repr

/-- An MCP resource template as discovered from a server. -/
structure ResourceTemplate where
  uriTemplate : String
  name : String := ""
deriving DecidableEq, Repr

/-- An `MCPClientConnection`: URL, discovery caches, connection state,
stored options and SDK client handle. -/
structure MCPClientConnection where
  url : String
  connectionState : ConnState := ConnState.connecting
  tools : List Tool := []
  prompts : List Prompt := []
  resources : List Resource := []
  resourceTemplates : List ResourceTemplate := []
  options : ConnOptions := {}
  client : MCPClient := {}
deriving DecidableEq, Repr

/-- The `MCPClientManager` state: connection record and the shared OAuth
callback URL registry. -/
structure MCPClientManager where
  _name : String := ""
  _version : String := ""
  mcpConnections : List (String × MCPClientConnection) := []
  _callbackUrls : List String := []
deriving DecidableEq, Repr

/-- An item of a discovery list augmented with the `serverId` of the
connection it came from (`{...item, serverId}`). -/
structure Namespaced (α : Type) where
  item : α
  serverId : String
deriving DecidableEq, Repr

/-- `getNamespacedData(mcpClients, type)`: maps the record to
`{data, name}` pairs and flat-maps each connection's selected list, tagging
every item with the connection's id. -/
def getNamespacedData {α : Type} (mcpClients : List (String × MCPClientConnection))
    (select : MCPClientConnection → List α) : List (Namespaced α) :=
  let sets := mcpClients.map (fun p => (p.1, select p.2))
  sets.flatMap (fun s => s.2.map (fun item => { item := item, serverId := s.1 }))

/-- `MCPClientManager.listTools()`. -/
def MCPClientManager.listTools (m : MCPClientManager) : List (Namespaced Tool) :=
  getNamespacedData m.mcpConnections (fun c => c.tools)

/-- `MCPClientManager.listPrompts()`. -/
def MCPClientManager.listPrompts (m : MCPClientManager) : List (Namespaced Prompt) :=
  getNamespacedData m.mcpConnections (fun c => c.prompts)

/-- `MCPClientManager.listResources()`. -/
def MCPClientManager.listResources (m : MCPClientManager) : List (Namespaced Resource) :=
  getNamespacedData m.mcpConnections (fun c => c.resources)

/-- `MCPClientManager.listResourceTemplates()`. -/
def MCPClientManager.listResourceTemplates (m : MCPClientManager) :
    List (Namespaced ResourceTemplate) :=
  getNamespacedData m.mcpConnections (fun c => c.resourceTemplates)

/-! ## Connecting (`MCPClientManager.connect`) -/

/-- `options.reconnect` of `connect`. -/
structure ReconnectOpts where
  id : String
  oauthClientId : Option String := none
  oauthCode : Option String := none
deriving DecidableEq, Repr

/-- The options argument of `connect`. -/
structure ConnectOptions where
  reconnect : Option ReconnectOpts := none
  transport : TransportOptions := {}
deriving DecidableEq, Repr

/-- The value resolved by `connect`. -/
structure ConnectResult where
  id : String
  authUrl : Option String := none
  clientId : Option String := none
deriving DecidableEq, Repr

/-- Outcome of `MCPClientConnection.init`.  Modelled from the spec:
`client-connection.ts` is not part of the reviewed tree.  Per spec section
4.H a run of `init` either resolves — leaving the connection state and the
discovery caches it populated — or throws, leaving the recorded state
(spec: failures leave `connectionState = failed` and re-throw). -/
inductive InitResult where
  | ok (s : ConnState) (tools : List Tool) (prompts : List Prompt)
       (resources : List Resource) (resourceTemplates : List ResourceTemplate)
  | err (msg : String) (s : ConnState)
deriving DecidableEq, Repr

/-- The behaviour of `MCPClientConnection.init`, as an oracle from the
server URL and the optional OAuth code.  Modelled from the spec (the
implementation is external to the reviewed tree). -/
def InitFn : Type := String → Option String → InitResult

/-- The id under which `connect` registers the connection:
`options.reconnect?.id ?? nanoid(8)` with the nanoid token supplied as
`genId`. -/
def connectId (opts : ConnectOptions) (genId : String) : String :=
  match opts.reconnect with
  | some r => r.id
  | none => genId

/-- The mutation `connect` applies to a supplied auth provider: set its
`serverId`, and on an auth reconnect plant the (truthy)
`options.reconnect?.oauthClientId` as its `clientId`. -/
def connectAuthProviderUpdate (ap : AuthProvider) (opts : ConnectOptions)
    (id : String) : AuthProvider :=
  let ap := { ap with serverId := id }
  match opts.reconnect with
  | some r =>
      match r.oauthClientId with
      | some cid => if cid = "" then ap else { ap with clientId := some cid }
      | none => ap
  | none => ap

/-- The transport options after `connect`'s auth provider mutation. -/
def connectTransport (opts : ConnectOptions) (id : String) : TransportOptions :=
  match opts.transport.authProvider with
  | none => opts.transport
  | some ap => { authProvider := some (connectAuthProviderUpdate ap opts id) }

/-- `MCPClientManager.connect(url, options)`.

`nanoid(8)` is modelled by the explicitly supplied `genId`; `initFn` models
the external `MCPClientConnection.init`.  The manager state is returned in
both outcomes because the connection is registered in `mcpConnections`
before `init` is awaited, so a throwing `init` still leaves it registered. -/
def MCPClientManager.connect (initFn : InitFn) (genId : String)
    (m : MCPClientManager) (url : String) (opts : ConnectOptions) :
    MCPClientManager × Except String ConnectResult :=
  let id := connectId opts genId
  let transport := connectTransport opts id
  let conn : MCPClientConnection :=
    { url := url, connectionState := ConnState.connecting,
      options := { transport := transport }, client := {} }
  match initFn url (opts.reconnect.bind (fun r => r.oauthCode)) with
  | InitResult.err msg s =>
      ({ m with mcpConnections :=
          setEntry m.mcpConnections id { conn with connectionState := s } },
       Except.error msg)
  | InitResult.ok s tls ps rs rts =>
      let conn :=
        { conn with
          connectionState := s, tools := tls, prompts := ps,
          resources := rs, resourceTemplates := rts }
      let m' := { m with mcpConnections := setEntry m.mcpConnections id conn }
      match transport.authProvider with
      | some ap =>
          match ap.authUrl, ap.redirectUrl with
          | some au, some ru =>
              -- the truthiness test `authUrl && redirectUrl` (the redirect
              -- URL is a URL object, truthy whenever present)
              if au = "" then (m', Except.ok { id := id })
              else
                ({ m' with _callbackUrls := m'._callbackUrls ++ [ru] },
                 Except.ok { id := id, authUrl := some au, clientId := ap.clientId })
          | _, _ => (m', Except.ok { id := id })
      | none => (m', Except.ok { id := id })

/-! ## OAuth callback demultiplexing -/

/-- An inbound HTTP request; `url` is the request's (already normalized)
absolute URL. -/
structure Request where
  method : String := "GET"
  url : String
deriving DecidableEq, Repr

/-- `MCPClientManager.isCallbackRequest(req)`. -/
def MCPClientManager.isCallbackRequest (m : MCPClientManager) (req : Request) : Bool :=
  req.method = "GET" &&
    (m._callbackUrls.find? (fun u => strStartsWith req.url u)).isSome

/-- The value resolved by `handleCallbackRequest`. -/
structure CallbackResult where
  serverId : String
deriving DecidableEq, Repr

/-- The diagnostic thrown when the bound connection is not in the
`authenticating` state (written via a character code to keep the source
text free of stray quote characters). -/
def noAuthStateMsg : String :=
  "Failed to authenticate: the client isn" ++ String.singleton (Char.ofNat 39) ++
    "t in the `authenticating` state"

/-- The diagnostic thrown when no registered callback URL prefixes the
request URL. -/
def noMatchMsg (url : String) : String :=
  "No callback URI match found for the request url: " ++ url ++
    ". Was the request matched with `isCallbackRequest()`?"

/-- The server id bound to a callback URL: its trailing path segment
(`urlParams[urlParams.length - 1]` after splitting on `/`). -/
def callbackServerId (urlMatch : String) : String :=
  String.mk (((splitChar '/' urlMatch.data).getLast?).getD [])

/-- The tail of `handleCallbackRequest` after the reconnecting `connect`
call: propagate its failure, then require the bound connection to have
left the `authenticating` state, else resolve `{serverId}`.  (Reading
`connectionState` of an unregistered id would be a JS TypeError; the
reconnect always registers it.) -/
def finalizeReconnect (step : MCPClientManager × Except String ConnectResult)
    (serverId : String) : MCPClientManager × Except String CallbackResult :=
  match step.2 with
  | Except.error e => (step.1, Except.error e)
  | Except.ok _ =>
      match recGet step.1.mcpConnections serverId with
      | some c =>
          if c.connectionState = ConnState.authenticating then
            (step.1, Except.error "Failed to authenticate: client failed to initialize")
          else (step.1, Except.ok { serverId := serverId })
      | none => (step.1, Except.error "TypeError")

/-- `MCPClientManager.handleCallbackRequest(req)`.

Returns the updated manager together with the resolved value or the thrown
diagnostic. -/
def MCPClientManager.handleCallbackRequest (initFn : InitFn)
    (m : MCPClientManager) (req : Request) :
    MCPClientManager × Except String CallbackResult :=
  match m._callbackUrls.find? (fun u => strStartsWith req.url u) with
  | none => (m, Except.error (noMatchMsg req.url))
  | some urlMatch =>
      let code := searchParamGet req.url "code"
      let clientId := searchParamGet req.url "state"
      let serverId := callbackServerId urlMatch
      if optFalsy code then (m, Except.error "Unauthorized: no code provided")
      else if optFalsy clientId then (m, Except.error "Unauthorized: no state provided")
      else
        match recGet m.mcpConnections serverId with
        | none => (m, Except.error ("Could not find serverId: " ++ serverId))
        | some conn =>
            if conn.connectionState ≠ ConnState.authenticating then
              (m, Except.error noAuthStateMsg)
            else
              match conn.options.transport.authProvider with
              | none =>
                  (m, Except.error
                    "Trying to finalize authentication for a server connection without an authProvider")
              | some ap =>
                  -- in-place mutation of the stored provider before reconnect
                  let ap :=
                    { ap with
                      clientId := clientId, serverId := serverId }
                  let conn :=
                    { conn with
                      options := { transport := { authProvider := some ap } } }
                  let m :=
                    { m with
                      mcpConnections := setEntry m.mcpConnections serverId conn }
                  let reopts : ConnectOptions :=
                    { reconnect :=
                        some { id := serverId, oauthClientId := clientId,
                               oauthCode := code },
                      transport := conn.options.transport }
                  finalizeReconnect (m.connect initFn "" conn.url reopts) serverId

/-! ## Closing connections -/

/-- `MCPClientManager.closeConnection(id)`: on success the entry is removed
and the closed SDK client handle is returned (the `client.close()` call). -/
def MCPClientManager.closeConnection (m : MCPClientManager) (id : String) :
    Except String (MCPClientManager × MCPClient) :=
  match recGet m.mcpConnections id with
  | none =>
      Except.error
        ("Connection with id \"" ++ id ++ "\" does not exist.")
  | some conn =>
      Except.ok
        ({ m with mcpConnections := eraseEntry m.mcpConnections id },
         { conn.client with closed := true })

/-- `MCPClientManager.closeAllConnections()`: calls `client.close()` on every
connection; the record entries themselves are not removed. -/
def MCPClientManager.closeAllConnections (m : MCPClientManager) : MCPClientManager :=
  { m with mcpConnections :=
      m.mcpConnections.map (fun p =>
        (p.1, { p.2 with client := { p.2.client with closed := true } })) }

/-! ## Namespaced invocation -/

/-- A JS runtime error (as opposed to an explicitly thrown `Error`). -/
inductive JsError where
  | typeError
deriving DecidableEq, Repr

/-- The params argument of `callTool` (`arguments` held opaquely). -/
structure CallToolParams where
  serverId : String
  name : String
  arguments : Option String := none
deriving DecidableEq, Repr

/-- The call forwarded to a connection's SDK client by `callTool`
(polymorphic in the opaque result schema and request options, which are
passed through verbatim). -/
structure ForwardedToolCall (σ ρ : Type) where
  params : CallToolParams
  resultSchema : Option σ
  options : Option ρ
deriving DecidableEq, Repr

/-- `MCPClientManager.callTool(params, resultSchema?, options?)`: strips the
first occurrence of `"<serverId>."` from `params.name` and forwards to the
client of the connection indexed — without any guard — by
`params.serverId`. -/
def MCPClientManager.callTool {σ ρ : Type} (m : MCPClientManager)
    (params : CallToolParams) (resultSchema : Option σ) (options : Option ρ) :
    Except JsError (ForwardedToolCall σ ρ) :=
  let unqualifiedName := jsReplaceFirst params.name (params.serverId ++ ".") ""
  match recGet m.mcpConnections params.serverId with
  | none => Except.error JsError.typeError
  | some _conn =>
      Except.ok
        { params := { params with name := unqualifiedName },
          resultSchema := resultSchema, options := options }

/-- The params argument of `readResource`. -/
structure ReadResourceParams where
  serverId : String
  uri : String
deriving DecidableEq, Repr

/-- The call forwarded by `readResource`. -/
structure ForwardedReadResource (ρ : Type) where
  params : ReadResourceParams
  options : ρ
deriving DecidableEq, Repr

/-- `MCPClientManager.readResource(params, options)`: forwards verbatim to
the client of the connection indexed — without any guard — by
`params.serverId`. -/
def MCPClientManager.readResource {ρ : Type} (m : MCPClientManager)
    (params : ReadResourceParams) (options : ρ) :
    Except JsError (ForwardedReadResource ρ) :=
  match recGet m.mcpConnections params.serverId with
  | none => Except.error JsError.typeError
  | some _conn => Except.ok { params := params, options := options }

/-- The params argument of `getPrompt`. -/
structure GetPromptParams where
  serverId : String
  name : String
  arguments : Option String := none
deriving DecidableEq, Repr

/-- The call forwarded by `getPrompt`. -/
structure ForwardedGetPrompt (ρ : Type) where
  params : GetPromptParams
  options : ρ
deriving DecidableEq, Repr

/-- `MCPClientManager.getPrompt(params, options)`: forwards verbatim to the
client of the connection indexed — without any guard — by
`params.serverId`. -/
def MCPClientManager.getPrompt {ρ : Type} (m : MCPClientManager)
    (params : GetPromptParams) (options : ρ) :
    Except JsError (ForwardedGetPrompt ρ) :=
  match recGet m.mcpConnections params.serverId with
  | none => Except.error JsError.typeError
  | some _conn => Except.ok { params := params, options := options }

/-! ## AI SDK tool set (`unstable_getAITools`) -/

/-- A content element of a tool call result (only `text` is read). -/
structure ContentItem where
  text : Option String := none
deriving DecidableEq, Repr

/-- The result of a tool call as inspected by the AI tool `execute`
closure. -/
structure CallToolResult where
  isError : Bool := false
  content : List ContentItem := []
deriving DecidableEq, Repr

/-- The `jsonSchema` wrapper of the external `ai` package, identity on the
carried schema. -/
def jsonSchema (s : String) : String := s

/-- One entry value of the tool set produced by `unstable_getAITools`: the
data fields together with the server id and tool name captured by the
`execute` closure. -/
structure AITool where
  description : Option String
  inputSchema : String
  executeServerId : String
  executeName : String
deriving DecidableEq, Repr

/-- `MCPClientManager.unstable_getAITools()`. -/
def MCPClientManager.unstable_getAITools (m : MCPClientManager) :
    List (String × AITool) :=
  jsFromEntries
    ((getNamespacedData m.mcpConnections (fun c => c.tools)).map (fun nt =>
      ("tool_" ++ nt.serverId ++ "_" ++ nt.item.name,
       { description := nt.item.description,
         inputSchema := jsonSchema nt.item.inputSchema,
         executeServerId := nt.serverId,
         executeName := nt.item.name })))

/-- The result processing inside the `execute` closure of an AI tool:
`result.isError` makes it throw `(result.content)[0]?.text ||
"Tool execution failed"`. -/
def executeResultHandler (result : CallToolResult) : Except String CallToolResult :=
  if result.isError then
    Except.error
      (match result.content.head? with
       | some c =>
           match c.text with
           | some t => if t = "" then "Tool execution failed" else t
           | none => "Tool execution failed"
       | none => "Tool execution failed")
  else Except.ok result

/-- The full `execute(args)` closure of an AI tool: invokes the manager's
`callTool` with the captured server id and name, then processes the result
the remote client produced for the forwarded call. -/
def executeAITool (m : MCPClientManager) (t : AITool) (args : Option String)
    (respond : ForwardedToolCall Unit Unit → CallToolResult) :
    Except JsError (Except String CallToolResult) :=
  match m.callTool
      { serverId := t.executeServerId, name := t.executeName, arguments := args }
      (none : Option Unit) (none : Option Unit) with
  | Except.error e => Except.error e
  | Except.ok fwd => Except.ok (executeResultHandler (respond fwd))

/-! ## Outgoing WebSocket message union (`ai-types.ts`) -/

/-- A chat message (opaque contents). -/
structure ChatMsg where
  id : String
  content : String
deriving DecidableEq, Repr

/-- The structural values outgoing WebSocket messages can take. -/
inductive OutgoingValue where
  | chatMessages (messages : List ChatMsg)
  | useChatResponse (id : String) (body : String) (done : Bool)
  | chatClear
deriving DecidableEq, Repr

/-- The `OutgoingMessage` union as declared in the source: four variants in
declaration order, the first and third being the structurally identical
`cf_agent_chat_messages` case. -/
def OutgoingMessageSource (v : OutgoingValue) : Prop :=
  (∃ ms, v = OutgoingValue.chatMessages ms) ∨
  (∃ i b d, v = OutgoingValue.useChatResponse i b d) ∨
  (∃ ms, v = OutgoingValue.chatMessages ms) ∨
  v = OutgoingValue.chatClear

/-- The same union with a single `cf_agent_chat_messages` case, following
the spec's wording. -/
def OutgoingMessageSingle (v : OutgoingValue) : Prop :=
  (∃ ms, v = OutgoingValue.chatMessages ms) ∨
  (∃ i b d, v = OutgoingValue.useChatResponse i b d) ∨
  v = OutgoingValue.chatClear

/-! ## Schedules migration (`003_create_cf_agents_schedules.ts`) -/

/-- A column of a created table, transcribed from the migration SQL. -/
structure ColumnSpec where
  name : String
  sqlType : String
  notNull : Bool := false
  primaryKey : Bool := false
  defaultSql : Option String := none
  checkIn : Option (List String) := none
deriving DecidableEq, Repr

/-- A storage migration `{name, sql}` with the SQL in structured form. -/
structure Migration where
  name : String
  table : String
  columns : List ColumnSpec
deriving DecidableEq, Repr

/-- `createCfAgentsSchedulesMigration`, transcribing the `CREATE TABLE`
statement of `003_create_cf_agents_schedules.ts` column by column. -/
def createCfAgentsSchedulesMigration : Migration :=
  { name := "003_create_cf_agents_schedules",
    table := "cf_agents_schedules",
    columns :=
      [ { name := "id", sqlType := "TEXT", primaryKey := true, notNull := true,
          defaultSql := some "(randomblob(9))" },
        { name := "callback", sqlType := "TEXT" },
        { name := "payload", sqlType := "TEXT" },
        { name := "type", sqlType := "TEXT", notNull := true,
          checkIn := some ["scheduled", "delayed", "cron"] },
        { name := "time", sqlType := "INTEGER" },
        { name := "delayInSeconds", sqlType := "INTEGER" },
        { name := "cron", sqlType := "TEXT" },
        { name := "created_at", sqlType := "INTEGER",
          defaultSql := some "(unixepoch())" } ] }

/-- The value constraint the migration places on the `type` column. -/
def scheduleTypeAllowed (v : String) : Prop :=
  match (createCfAgentsSchedulesMigration.columns.find?
      (fun c => c.name = "type")).bind (fun c => c.checkIn) with
  | some vs => v ∈ vs
  | none => True

/-! ## Helper lemmas -/

theorem recGet_isSome_of_mem {α : Type} {l : List (String × α)} {k : String}
    (h : ∃ v, (k, v) ∈ l) : (recGet l k).isSome = true := by
  induction l with
  | nil => simp at h
  | cons p rest ih =>
      obtain ⟨v, hv⟩ := h
      rw [List.mem_cons] at hv
      cases p with
      | mk k' v' =>
          rcases hv with heq | hmem
          · rw [show ((k', v') : String × α) = (k, v) from heq.symm]
            simp [recGet]
          · simp only [recGet]
            by_cases hk : k' = k
            · simp [hk]
            · rw [if_neg hk]
              exact ih ⟨v, hmem⟩

theorem getNamespacedData_eq_flatten {α : Type}
    (conns : List (String × MCPClientConnection))
    (sel : MCPClientConnection → List α) :
    getNamespacedData conns sel =
      (conns.map (fun p => (sel p.2).map (fun t => Namespaced.mk t p.1))).flatten := by
  unfold getNamespacedData
  rw [List.flatMap_def, List.map_map]
  rfl

theorem getNamespacedData_length {α : Type}
    (conns : List (String × MCPClientConnection))
    (sel : MCPClientConnection → List α) :
    (getNamespacedData conns sel).length =
      (conns.map (fun p => (sel p.2).length)).sum := by
  rw [getNamespacedData_eq_flatten, List.length_flatten, List.map_map]
  congr 1
  apply List.map_congr_left
  intro p _
  simp

theorem getNamespacedData_serverId_mem {α : Type}
    {conns : List (String × MCPClientConnection)}
    {sel : MCPClientConnection → List α} {x : Namespaced α}
    (hx : x ∈ getNamespacedData conns sel) :
    (recGet conns x.serverId).isSome = true := by
  rw [getNamespacedData_eq_flatten] at hx
  rw [List.mem_flatten] at hx
  obtain ⟨l, hl, hxl⟩ := hx
  rw [List.mem_map] at hl
  obtain ⟨p, hp, rfl⟩ := hl
  rw [List.mem_map] at hxl
  obtain ⟨t, _, rfl⟩ := hxl
  exact recGet_isSome_of_mem ⟨p.2, by simpa using hp⟩

/-- Whether `pat` occurs as a contiguous substring of `s`. -/
def containsSub (s pat : List Char) : Bool :=
  match s with
  | [] => pat.isPrefixOf ([] : List Char)
  | _ :: rest => pat.isPrefixOf s || containsSub rest pat

theorem isPrefixOf_append_self (l₁ l₂ : List Char) :
    l₁.isPrefixOf (l₁ ++ l₂) = true := by
  induction l₁ with
  | nil => simp [List.isPrefixOf]
  | cons c rest ih => simp [List.isPrefixOf, ih]

theorem listReplaceFirst_of_isPrefixOf {s pat rep : List Char}
    (h : pat.isPrefixOf s = true) :
    listReplaceFirst s pat rep = rep ++ s.drop pat.length := by
  cases s with
  | nil =>
      cases pat with
      | nil => simp [listReplaceFirst]
      | cons c p => simp [List.isPrefixOf] at h
  | cons c rest => simp [listReplaceFirst, h]

theorem listReplaceFirst_of_not_contains {s pat rep : List Char}
    (h : containsSub s pat = false) :
    listReplaceFirst s pat rep = s := by
  induction s with
  | nil =>
      unfold containsSub at h
      simp [listReplaceFirst, h]
  | cons c rest ih =>
      unfold containsSub at h
      rw [Bool.or_eq_false_iff] at h
      simp [listReplaceFirst, h.1, ih h.2]

theorem jsReplaceFirst_prefix_append (pat loc : String) :
    jsReplaceFirst (pat ++ loc) pat "" = loc := by
  unfold jsReplaceFirst
  have hd : (pat ++ loc).data = pat.data ++ loc.data := String.data_append pat loc
  rw [hd, listReplaceFirst_of_isPrefixOf (isPrefixOf_append_self pat.data loc.data)]
  rw [List.drop_left]
  cases loc
  rfl

theorem jsReplaceFirst_not_contains (s pat rep : String)
    (h : containsSub s.data pat.data = false) :
    jsReplaceFirst s pat rep = s := by
  unfold jsReplaceFirst
  rw [listReplaceFirst_of_not_contains h]

/-! ## Claim theorems -/

/-- Claim C1: each discovery operation (`listTools`, `listPrompts`,
`listResources`, `listResourceTemplates`) returns the concatenation, in
connection-insertion order, of every connection's corresponding cached list
with each item tagged with that connection's id; hence its length is the
sum of the per-connection lengths and every returned item's `serverId` keys
into `mcpConnections`. -/
theorem claim_C1 (m : MCPClientManager) :
    (m.listTools =
        (m.mcpConnections.map (fun p => p.2.tools.map (fun t => Namespaced.mk t p.1))).flatten
      ∧ m.listTools.length = (m.mcpConnections.map (fun p => p.2.tools.length)).sum
      ∧ ∀ x ∈ m.listTools, (recGet m.mcpConnections x.serverId).isSome = true)
    ∧ (m.listPrompts =
        (m.mcpConnections.map (fun p => p.2.prompts.map (fun t => Namespaced.mk t p.1))).flatten
      ∧ m.listPrompts.length = (m.mcpConnections.map (fun p => p.2.prompts.length)).sum
      ∧ ∀ x ∈ m.listPrompts, (recGet m.mcpConnections x.serverId).isSome = true)
    ∧ (m.listResources =
        (m.mcpConnections.map (fun p => p.2.resources.map (fun t => Namespaced.mk t p.1))).flatten
      ∧ m.listResources.length = (m.mcpConnections.map (fun p => p.2.resources.length)).sum
      ∧ ∀ x ∈ m.listResources, (recGet m.mcpConnections x.serverId).isSome = true)
    ∧ (m.listResourceTemplates =
        (m.mcpConnections.map (fun p => p.2.resourceTemplates.map (fun t => Namespaced.mk t p.1))).flatten
      ∧ m.listResourceTemplates.length =
          (m.mcpConnections.map (fun p => p.2.resourceTemplates.length)).sum
      ∧ ∀ x ∈ m.listResourceTemplates, (recGet m.mcpConnections x.serverId).isSome = true) :=
  ⟨⟨getNamespacedData_eq_flatten _ _, getNamespacedData_length _ _,
    fun _ hx => getNamespacedData_serverId_mem hx⟩,
   ⟨getNamespacedData_eq_flatten _ _, getNamespacedData_length _ _,
    fun _ hx => getNamespacedData_serverId_mem hx⟩,
   ⟨getNamespacedData_eq_flatten _ _, getNamespacedData_length _ _,
    fun _ hx => getNamespacedData_serverId_mem hx⟩,
   ⟨getNamespacedData_eq_flatten _ _, getNamespacedData_length _ _,
    fun _ hx => getNamespacedData_serverId_mem hx⟩⟩

/-- Claim C1, witnessed on a concrete two-connection manager. -/
theorem claim_C1_witness :
    (Agents.MCPClientManager.listTools
        { _name := "c", _version := "1",
          mcpConnections :=
            [("s1", { url := "u1", tools := [{ name := "t1" }, { name := "t2" }] }),
             ("s2", { url := "u2", tools := [{ name := "t3" }] })] }).length
      = 2 + 1
    ∧ ({ item := { name := "t3" }, serverId := "s2" } : Namespaced Tool)
        ∈ Agents.MCPClientManager.listTools
        { _name := "c", _version := "1",
          mcpConnections :=
            [("s1", { url := "u1", tools := [{ name := "t1" }, { name := "t2" }] }),
             ("s2", { url := "u2", tools := [{ name := "t3" }] })] }
    ∧ (recGet
        [("s1", ({ url := "u1", tools := [{ name := "t1" }, { name := "t2" }] } : MCPClientConnection)),
         ("s2", { url := "u2", tools := [{ name := "t3" }] })] "s2").isSome = true := by
  have h := claim_C1
    { _name := "c", _version := "1",
      mcpConnections :=
        [("s1", { url := "u1", tools := [{ name := "t1" }, { name := "t2" }] }),
         ("s2", { url := "u2", tools := [{ name := "t3" }] })] }
  refine ⟨?_, by decide, ?_⟩
  · rw [h.1.2.1]
    decide
  · exact h.1.2.2 { item := { name := "t3" }, serverId := "s2" } (by decide)

theorem recGet_eq_none_of_not_mem {α : Type} {l : List (String × α)} {k : String}
    (h : k ∉ l.map Prod.fst) : recGet l k = none := by
  induction l with
  | nil => rfl
  | cons p rest ih =>
      cases p with
      | mk k' v' =>
          simp only [List.map_cons, List.mem_cons] at h
          push_neg at h
          simp only [recGet]
          rw [if_neg (fun hk => h.1 hk.symm)]
          exact ih h.2

theorem recGet_eraseEntry_self {α : Type} {l : List (String × α)} {k : String}
    (h : (l.map Prod.fst).Nodup) : recGet (eraseEntry l k) k = none := by
  induction l with
  | nil => rfl
  | cons p rest ih =>
      cases p with
      | mk k' v' =>
          rw [List.map_cons, List.nodup_cons] at h
          simp only [eraseEntry]
          by_cases hk : k' = k
          · rw [if_pos hk]
            subst hk
            exact recGet_eq_none_of_not_mem h.1
          · rw [if_neg hk]
            simp only [recGet]
            rw [if_neg hk]
            exact ih h.2

/-- Claim C10: `callTool`, `readResource` and `getPrompt` index
`mcpConnections` by the given `serverId` without any guard — an
unregistered `serverId` makes each of them fail with a JS `TypeError`
(property access on `undefined`), and any successful completion implies
the `serverId` was registered. -/
theorem claim_C10 {σ ρ : Type} (m : MCPClientManager) :
    (∀ (p : CallToolParams) (rs : Option σ) (o : Option ρ),
        recGet m.mcpConnections p.serverId = none →
          m.callTool p rs o = Except.error JsError.typeError)
  ∧ (∀ (p : ReadResourceParams) (o : ρ),
        recGet m.mcpConnections p.serverId = none →
          m.readResource p o = Except.error JsError.typeError)
  ∧ (∀ (p : GetPromptParams) (o : ρ),
        recGet m.mcpConnections p.serverId = none →
          m.getPrompt p o = Except.error JsError.typeError)
  ∧ (∀ (p : CallToolParams) (rs : Option σ) (o : Option ρ)
        (fwd : ForwardedToolCall σ ρ),
        m.callTool p rs o = Except.ok fwd →
          (recGet m.mcpConnections p.serverId).isSome = true)
  ∧ (∀ (p : ReadResourceParams) (o : ρ) (fwd : ForwardedReadResource ρ),
        m.readResource p o = Except.ok fwd →
          (recGet m.mcpConnections p.serverId).isSome = true)
  ∧ (∀ (p : GetPromptParams) (o : ρ) (fwd : ForwardedGetPrompt ρ),
        m.getPrompt p o = Except.ok fwd →
          (recGet m.mcpConnections p.serverId).isSome = true) := by
  refine ⟨?_, ?_, ?_, ?_, ?_, ?_⟩
  · intro p rs o h
    simp [MCPClientManager.callTool, h]
  · intro p o h
    simp [MCPClientManager.readResource, h]
  · intro p o h
    simp [MCPClientManager.getPrompt, h]
  · intro p rs o fwd hok
    cases hr : recGet m.mcpConnections p.serverId with
    | none => simp [MCPClientManager.callTool, hr] at hok
    | some c => rfl
  · intro p o fwd hok
    cases hr : recGet m.mcpConnections p.serverId with
    | none => simp [MCPClientManager.readResource, hr] at hok
    | some c => rfl
  · intro p o fwd hok
    cases hr : recGet m.mcpConnections p.serverId with
    | none => simp [MCPClientManager.getPrompt, hr] at hok
    | some c => rfl

/-- Claim C10, witnessed on an empty manager and an unregistered id. -/
theorem claim_C10_witness :
    recGet (({ _name := "n", _version := "v" } : MCPClientManager).mcpConnections) "x" = none
    ∧ MCPClientManager.callTool ({ _name := "n", _version := "v" } : MCPClientManager)
        { serverId := "x", name := "t" } (none : Option String) (none : Option String)
      = Except.error JsError.typeError :=
  ⟨rfl, (claim_C10 { _name := "n", _version := "v" }).1
    { serverId := "x", name := "t" } none none rfl⟩

/-- Claim C5 as stated is false: `params.name.replace(serverId + ".", "")`
removes the first occurrence of the substring anywhere, not only a leading
prefix.  Here the name `"a.s.b"` does not start with `"s."`, yet it is not
forwarded unchanged. -/
theorem claim_C5_counterexample :
    MCPClientManager.callTool
        ({ _name := "n", _version := "v",
           mcpConnections := [("s", { url := "u" })] } : MCPClientManager)
        { serverId := "s", name := "a.s.b" }
        (none : Option String) (none : Option String)
      = Except.ok { params := { serverId := "s", name := "a.b" },
                    resultSchema := none, options := none }
    ∧ strStartsWith "a.s.b" "s." = false
    ∧ ("a.b" : String) ≠ "a.s.b" := by
  refine ⟨rfl, by decide, by decide⟩

/-- Claim C5 (amended): with a connection registered under
`params.serverId`, `callTool` forwards the same params except that the
first occurrence of the substring `"<serverId>."` is removed from `name`
(in particular a leading `"<serverId>."` is stripped, and a name not
containing the substring is forwarded unchanged), with `resultSchema` and
`options` passed through verbatim. -/
theorem claim_C5 {σ ρ : Type} (m : MCPClientManager) (p : CallToolParams)
    (rs : Option σ) (o : Option ρ) (conn : MCPClientConnection)
    (h : recGet m.mcpConnections p.serverId = some conn) :
    m.callTool p rs o =
      Except.ok { params := { p with name := jsReplaceFirst p.name (p.serverId ++ ".") "" },
                  resultSchema := rs, options := o }
    ∧ (∀ loc : String, p.name = p.serverId ++ "." ++ loc →
        m.callTool p rs o =
          Except.ok { params := { p with name := loc },
                      resultSchema := rs, options := o })
    ∧ (containsSub p.name.data (p.serverId ++ ".").data = false →
        m.callTool p rs o =
          Except.ok { params := p, resultSchema := rs, options := o }) := by
  have h1 : m.callTool p rs o =
      Except.ok { params := { p with name := jsReplaceFirst p.name (p.serverId ++ ".") "" },
                  resultSchema := rs, options := o } := by
    simp [MCPClientManager.callTool, h]
  refine ⟨h1, ?_, ?_⟩
  · intro loc hl
    rw [h1, hl, jsReplaceFirst_prefix_append]
  · intro hc
    rw [h1, jsReplaceFirst_not_contains _ _ _ hc]

/-- Claim C5 (amended), witnessed: a namespaced name has its leading
`"<serverId>."` stripped. -/
theorem claim_C5_witness :
    recGet ([("s", ({ url := "u" } : MCPClientConnection))]) "s" = some { url := "u" }
    ∧ ("s.tool" : String) = "s" ++ "." ++ "tool"
    ∧ MCPClientManager.callTool
        ({ _name := "n", _version := "v",
           mcpConnections := [("s", { url := "u" })] } : MCPClientManager)
        { serverId := "s", name := "s.tool" }
        (none : Option String) (none : Option String)
      = Except.ok { params := { serverId := "s", name := "tool" },
                    resultSchema := none, options := none } :=
  ⟨rfl, by decide,
   (claim_C5 { _name := "n", _version := "v",
               mcpConnections := [("s", { url := "u" })] }
      { serverId := "s", name := "s.tool" } none none { url := "u" } rfl).2.1
     "tool" (by decide)⟩

/-- Claim C4 as stated is false for `closeAllConnections`: it closes every
connection's SDK client but never removes the entries from
`mcpConnections`, so the connection is still held by the manager
afterwards. -/
theorem claim_C4_counterexample :
    (recGet (MCPClientManager.closeAllConnections
        { _name := "n", _version := "v",
          mcpConnections := [("a", { url := "u" })] }).mcpConnections "a").isSome
      = true := by
  decide

/-- Claim C4 (amended): `closeConnection(id)` with an unregistered id
throws the exact diagnostic; with a registered id it closes that
connection's client and removes the entry (so the id no longer resolves,
given the record's keys are distinct).  `closeAllConnections()` closes
every registered connection's client but leaves all entries registered. -/
theorem claim_C4 (m : MCPClientManager) (id : String) :
    (recGet m.mcpConnections id = none →
       m.closeConnection id =
         Except.error ("Connection with id \"" ++ id ++ "\" does not exist."))
  ∧ (∀ conn, recGet m.mcpConnections id = some conn →
       m.closeConnection id =
         Except.ok ({ m with mcpConnections := eraseEntry m.mcpConnections id },
                    { conn.client with closed := true })
       ∧ ((m.mcpConnections.map Prod.fst).Nodup →
            recGet (eraseEntry m.mcpConnections id) id = none))
  ∧ (∀ p ∈ (MCPClientManager.closeAllConnections m).mcpConnections,
       p.2.client.closed = true)
  ∧ ((MCPClientManager.closeAllConnections m).mcpConnections.map Prod.fst
       = m.mcpConnections.map Prod.fst) := by
  refine ⟨?_, ?_, ?_, ?_⟩
  · intro h
    simp [MCPClientManager.closeConnection, h]
  · intro conn h
    refine ⟨by simp [MCPClientManager.closeConnection, h], ?_⟩
    intro hn
    exact recGet_eraseEntry_self hn
  · intro p hp
    simp only [MCPClientManager.closeAllConnections, List.mem_map] at hp
    obtain ⟨q, _, rfl⟩ := hp
    rfl
  · simp [MCPClientManager.closeAllConnections, List.map_map]

/-- Claim C4 (amended), witnessed on a one-connection manager. -/
theorem claim_C4_witness :
    recGet ([("a", ({ url := "u" } : MCPClientConnection))]) "a" = some { url := "u" }
    ∧ MCPClientManager.closeConnection
        ({ _name := "n", _version := "v",
           mcpConnections := [("a", { url := "u" })] } : MCPClientManager) "a"
      = Except.ok ({ _name := "n", _version := "v", mcpConnections := [] },
                   { closed := true }) := by
  refine ⟨rfl, ?_⟩
  have h := ((claim_C4
      { _name := "n", _version := "v", mcpConnections := [("a", { url := "u" })] }
      "a").2.1 { url := "u" } rfl).1
  rw [h]
  rfl

theorem setEntry_of_not_mem {α : Type} {l : List (String × α)} {k : String}
    (v : α) (h : k ∉ l.map Prod.fst) : setEntry l k v = l ++ [(k, v)] := by
  induction l with
  | nil => rfl
  | cons p rest ih =>
      cases p with
      | mk k' v' =>
          simp only [List.map_cons, List.mem_cons] at h
          push_neg at h
          simp only [setEntry]
          rw [if_neg (fun hk => h.1 hk.symm)]
          rw [ih h.2]
          simp

theorem foldl_setEntry_nodup {α : Type} :
    ∀ (l acc : List (String × α)),
      ((acc ++ l).map Prod.fst).Nodup →
      l.foldl (fun a p => setEntry a p.1 p.2) acc = acc ++ l := by
  intro l
  induction l with
  | nil => intro acc _; simp
  | cons p rest ih =>
      intro acc h
      have hsplit : ((acc ++ p :: rest).map Prod.fst) =
          acc.map Prod.fst ++ p.1 :: rest.map Prod.fst := by simp
      rw [hsplit] at h
      have hknotin : p.1 ∉ acc.map Prod.fst := by
        intro hmem
        have hdisj := (List.nodup_append.mp h).2.2
        exact hdisj hmem (by simp)
      have hstep : setEntry acc p.1 p.2 = acc ++ [(p.1, p.2)] :=
        setEntry_of_not_mem p.2 hknotin
      have hassoc : (acc ++ [(p.1, p.2)]) ++ rest = acc ++ p :: rest := by simp
      calc (p :: rest).foldl (fun a q => setEntry a q.1 q.2) acc
          = rest.foldl (fun a q => setEntry a q.1 q.2) (setEntry acc p.1 p.2) := rfl
        _ = rest.foldl (fun a q => setEntry a q.1 q.2) (acc ++ [(p.1, p.2)]) := by
              rw [hstep]
        _ = (acc ++ [(p.1, p.2)]) ++ rest := by
              apply ih
              rw [List.append_assoc]
              simpa using h
        _ = acc ++ p :: rest := hassoc

theorem jsFromEntries_of_nodup {α : Type} {l : List (String × α)}
    (h : (l.map Prod.fst).Nodup) : jsFromEntries l = l := by
  have := foldl_setEntry_nodup l [] (by simpa using h)
  simpa [jsFromEntries] using this

/-- Claim C6 as stated is false in its error-message clause: an
`isError:true` result whose first content element's text is present but
empty makes `execute` throw `"Tool execution failed"`, not the (empty)
text — `text || "Tool execution failed"` tests JS truthiness, not
presence. -/
theorem claim_C6_counterexample :
    executeResultHandler { isError := true, content := [{ text := some "" }] }
      = Except.error "Tool execution failed"
    ∧ ("Tool execution failed" : String) ≠ "" := by
  refine ⟨rfl, by decide⟩

/-- Claim C6 (amended): provided the generated keys are pairwise distinct
(JS object keys collapse duplicates, rightmost value winning),
`unstable_getAITools()` has exactly one entry per discovered tool, keyed
`tool_<serverId>_<name>`, carrying the tool's description and (wrapped)
inputSchema and the serverId/name its `execute` closure invokes `callTool`
with; on an `isError:true` result `execute` throws the first content
element's text, or `"Tool execution failed"` when that text is absent or
empty. -/
theorem claim_C6 (m : MCPClientManager)
    (hkeys : ((m.listTools).map
        (fun nt => "tool_" ++ nt.serverId ++ "_" ++ nt.item.name)).Nodup) :
    m.unstable_getAITools =
      (m.listTools).map (fun nt =>
        ("tool_" ++ nt.serverId ++ "_" ++ nt.item.name,
         { description := nt.item.description,
           inputSchema := jsonSchema nt.item.inputSchema,
           executeServerId := nt.serverId,
           executeName := nt.item.name }))
    ∧ (∀ r : CallToolResult, r.isError = false → executeResultHandler r = Except.ok r)
    ∧ (∀ (r : CallToolResult) (t : String), r.isError = true →
         (r.content.head?).bind (fun c => c.text) = some t → t ≠ "" →
         executeResultHandler r = Except.error t)
    ∧ (∀ r : CallToolResult, r.isError = true →
         ((r.content.head?).bind (fun c => c.text) = none ∨
          (r.content.head?).bind (fun c => c.text) = some "") →
         executeResultHandler r = Except.error "Tool execution failed")
    ∧ (∀ (t : AITool) (args : Option String)
         (respond : ForwardedToolCall Unit Unit → CallToolResult)
         (fwd : ForwardedToolCall Unit Unit),
         m.callTool { serverId := t.executeServerId, name := t.executeName,
                      arguments := args }
             (none : Option Unit) (none : Option Unit) = Except.ok fwd →
         executeAITool m t args respond =
           Except.ok (executeResultHandler (respond fwd))) := by
  refine ⟨?_, ?_, ?_, ?_, ?_⟩
  · have hk2 : (((m.listTools).map (fun nt =>
        ("tool_" ++ nt.serverId ++ "_" ++ nt.item.name,
         ({ description := nt.item.description,
            inputSchema := jsonSchema nt.item.inputSchema,
            executeServerId := nt.serverId,
            executeName := nt.item.name } : AITool)))).map Prod.fst).Nodup := by
      rw [List.map_map]
      exact hkeys
    have := jsFromEntries_of_nodup hk2
    exact this
  · intro r h
    simp [executeResultHandler, h]
  · intro r t h ht hne
    cases hc : r.content.head? with
    | none => rw [hc] at ht; simp at ht
    | some c =>
        rw [hc] at ht
        simp only [Option.some_bind] at ht
        simp [executeResultHandler, h, hc, ht, hne]
  · intro r h hor
    cases hc : r.content.head? with
    | none => simp [executeResultHandler, h, hc]
    | some c =>
        rcases hor with h0 | h0 <;> rw [hc] at h0 <;>
          simp only [Option.some_bind] at h0 <;>
          simp [executeResultHandler, h, hc, h0]
  · intro t args respond fwd hcall
    simp [executeAITool, hcall]

/-- Claim C6 (amended), witnessed on a one-tool manager. -/
theorem claim_C6_witness :
    ((Agents.MCPClientManager.listTools
        { _name := "c", _version := "1",
          mcpConnections :=
            [("s1", { url := "u1",
                      tools := [{ name := "t1", description := some "d1",
                                  inputSchema := "sch" }] })] }).map
        (fun nt => "tool_" ++ nt.serverId ++ "_" ++ nt.item.name)).Nodup
    ∧ Agents.MCPClientManager.unstable_getAITools
        { _name := "c", _version := "1",
          mcpConnections :=
            [("s1", { url := "u1",
                      tools := [{ name := "t1", description := some "d1",
                                  inputSchema := "sch" }] })] }
      = [("tool_s1_t1",
          { description := some "d1", inputSchema := "sch",
            executeServerId := "s1", executeName := "t1" })] := by
  refine ⟨by decide, ?_⟩
  have h := (claim_C6
      { _name := "c", _version := "1",
        mcpConnections :=
          [("s1", { url := "u1",
                    tools := [{ name := "t1", description := some "d1",
                                inputSchema := "sch" }] })] }
      (by decide)).1
  rw [h]
  rfl

/-- Claim C8 as stated is false: the schedules table has no column named
`delay_seconds` (the column is `delayInSeconds`). -/
theorem claim_C8_counterexample :
    "delay_seconds" ∉ createCfAgentsSchedulesMigration.columns.map ColumnSpec.name
    ∧ "delayInSeconds" ∈ createCfAgentsSchedulesMigration.columns.map ColumnSpec.name := by
  refine ⟨by decide, by decide⟩

/-- Claim C8 (amended): the schedule table created by the migration has
exactly the columns `id, callback, payload, type, time, delayInSeconds,
cron, created_at` (the delay column is `delayInSeconds`, not
`delay_seconds`), with `type` constrained to
`{scheduled, delayed, cron}`. -/
theorem claim_C8 :
    createCfAgentsSchedulesMigration.columns.map ColumnSpec.name =
      ["id", "callback", "payload", "type", "time", "delayInSeconds", "cron",
       "created_at"]
    ∧ (∀ v, scheduleTypeAllowed v ↔ (v = "scheduled" ∨ v = "delayed" ∨ v = "cron")) := by
  constructor
  · rfl
  · have hX : (createCfAgentsSchedulesMigration.columns.find?
        (fun c => c.name = "type")).bind (fun c => c.checkIn)
        = some ["scheduled", "delayed", "cron"] := by rfl
    intro v
    unfold scheduleTypeAllowed
    rw [hX]
    simp

/-- Claim C9: the outgoing WebSocket message union with its two adjacent,
structurally identical `cf_agent_chat_messages` variants admits exactly the
same messages as the union with a single such case. -/
theorem claim_C9 (v : OutgoingValue) :
    OutgoingMessageSource v ↔ OutgoingMessageSingle v := by
  unfold OutgoingMessageSource OutgoingMessageSingle
  constructor
  · rintro (h | h | h | h)
    · exact Or.inl h
    · exact Or.inr (Or.inl h)
    · exact Or.inl h
    · exact Or.inr (Or.inr h)
  · rintro (h | h | h)
    · exact Or.inl h
    · exact Or.inr (Or.inl h)
    · exact Or.inr (Or.inr (Or.inr h))

theorem recGet_setEntry_self {α : Type} (l : List (String × α)) (k : String) (v : α) :
    recGet (setEntry l k v) k = some v := by
  induction l with
  | nil => simp [setEntry, recGet]
  | cons p rest ih =>
      cases p with
      | mk k' v' =>
          simp only [setEntry]
          by_cases hk : k' = k
          · rw [if_pos hk]
            simp [recGet]
          · rw [if_neg hk]
            simp only [recGet]
            rw [if_neg hk]
            exact ih

/-- The connection stored by `connect` for a given init outcome. -/
def connectStoredConn (url : String) (opts : ConnectOptions) (id : String)
    (r : InitResult) : MCPClientConnection :=
  match r with
  | InitResult.err _ s =>
      { url := url, connectionState := s,
        options := { transport := connectTransport opts id } }
  | InitResult.ok s tls ps rs rts =>
      { url := url, connectionState := s, tools := tls, prompts := ps,
        resources := rs, resourceTemplates := rts,
        options := { transport := connectTransport opts id } }

theorem connect_mcpConnections (initFn : InitFn) (genId : String)
    (m : MCPClientManager) (url : String) (opts : ConnectOptions) :
    (m.connect initFn genId url opts).1.mcpConnections =
      setEntry m.mcpConnections (connectId opts genId)
        (connectStoredConn url opts (connectId opts genId)
          (initFn url (opts.reconnect.bind (fun r => r.oauthCode)))) := by
  unfold MCPClientManager.connect
  cases hinit : initFn url (opts.reconnect.bind (fun r => r.oauthCode)) with
  | err msg s => simp [connectStoredConn]
  | ok s tls ps rs rts =>
      simp only [connectStoredConn]
      split
      · split
        · split <;> rfl
        · rfl
      · rfl

theorem connect_err_snd (initFn : InitFn) (genId : String)
    (m : MCPClientManager) (url : String) (opts : ConnectOptions)
    {msg : String} {s : ConnState}
    (h : initFn url (opts.reconnect.bind (fun r => r.oauthCode)) = InitResult.err msg s) :
    (m.connect initFn genId url opts).2 = Except.error msg := by
  unfold MCPClientManager.connect
  rw [h]

theorem connect_ok_snd (initFn : InitFn) (genId : String)
    (m : MCPClientManager) (url : String) (opts : ConnectOptions)
    {s : ConnState} {tls : List Tool} {ps : List Prompt} {rs : List Resource}
    {rts : List ResourceTemplate}
    (h : initFn url (opts.reconnect.bind (fun r => r.oauthCode)) =
      InitResult.ok s tls ps rs rts) :
    ∃ res : ConnectResult,
      (m.connect initFn genId url opts).2 = Except.ok res
      ∧ res.id = connectId opts genId := by
  unfold MCPClientManager.connect
  rw [h]
  simp only []
  split
  · split
    · split
      · exact ⟨_, rfl, rfl⟩
      · exact ⟨_, rfl, rfl⟩
    · exact ⟨_, rfl, rfl⟩
  · exact ⟨_, rfl, rfl⟩

theorem connect_ok_auth (initFn : InitFn) (genId : String)
    (m : MCPClientManager) (url : String) (opts : ConnectOptions)
    {s : ConnState} {tls : List Tool} {ps : List Prompt} {rs : List Resource}
    {rts : List ResourceTemplate} {ap : AuthProvider} {au ru : String}
    (h : initFn url (opts.reconnect.bind (fun r => r.oauthCode)) =
      InitResult.ok s tls ps rs rts)
    (hap : (connectTransport opts (connectId opts genId)).authProvider = some ap)
    (hau : ap.authUrl = some au) (hne : au ≠ "") (hru : ap.redirectUrl = some ru) :
    (m.connect initFn genId url opts).2 =
      Except.ok { id := connectId opts genId, authUrl := some au,
                  clientId := ap.clientId }
    ∧ (m.connect initFn genId url opts).1._callbackUrls =
        m._callbackUrls ++ [ru] := by
  unfold MCPClientManager.connect
  rw [h]
  simp only [hap, hau, hru]
  rw [if_neg hne]
  exact ⟨rfl, rfl⟩

theorem connect_ok_noauth (initFn : InitFn) (genId : String)
    (m : MCPClientManager) (url : String) (opts : ConnectOptions)
    {s : ConnState} {tls : List Tool} {ps : List Prompt} {rs : List Resource}
    {rts : List ResourceTemplate}
    (h : initFn url (opts.reconnect.bind (fun r => r.oauthCode)) =
      InitResult.ok s tls ps rs rts)
    (hno : ¬ ∃ (ap : AuthProvider) (au ru : String),
      (connectTransport opts (connectId opts genId)).authProvider = some ap ∧
      ap.authUrl = some au ∧ au ≠ "" ∧ ap.redirectUrl = some ru) :
    (m.connect initFn genId url opts).2 = Except.ok { id := connectId opts genId }
    ∧ (m.connect initFn genId url opts).1._callbackUrls = m._callbackUrls := by
  unfold MCPClientManager.connect
  rw [h]
  simp only []
  split
  · rename_i ap hap
    split
    · rename_i au ru hau hru
      split
      · exact ⟨rfl, rfl⟩
      · rename_i he
        exact absurd ⟨ap, au, ru, hap, hau, he, hru⟩ hno
    · exact ⟨rfl, rfl⟩
  · exact ⟨rfl, rfl⟩

theorem connect_callbackUrls_appendOnly (initFn : InitFn) (genId : String)
    (m : MCPClientManager) (url : String) (opts : ConnectOptions) :
    ∃ t, (m.connect initFn genId url opts).1._callbackUrls = m._callbackUrls ++ t := by
  unfold MCPClientManager.connect
  cases hinit : initFn url (opts.reconnect.bind (fun r => r.oauthCode)) with
  | err msg s => exact ⟨[], by simp⟩
  | ok s tls ps rs rts =>
      simp only []
      split
      · split
        · split
          · exact ⟨[], by simp⟩
          · exact ⟨_, rfl⟩
        · exact ⟨[], by simp⟩
      · exact ⟨[], by simp⟩

theorem finalizeReconnect_fst (step : MCPClientManager × Except String ConnectResult)
    (serverId : String) : (finalizeReconnect step serverId).1 = step.1 := by
  unfold finalizeReconnect
  split
  · rfl
  · split
    · split <;> rfl
    · rfl

theorem handleCallback_callbackUrls_appendOnly (initFn : InitFn)
    (m : MCPClientManager) (req : Request) :
    ∃ t, (m.handleCallbackRequest initFn req).1._callbackUrls =
      m._callbackUrls ++ t := by
  unfold MCPClientManager.handleCallbackRequest
  cases hfind : m._callbackUrls.find? (fun u => strStartsWith req.url u) with
  | none => exact ⟨[], by simp⟩
  | some u =>
      simp only []
      by_cases h1 : optFalsy (searchParamGet req.url "code") = true
      · rw [if_pos h1]
        exact ⟨[], by simp⟩
      · rw [if_neg h1]
        by_cases h2 : optFalsy (searchParamGet req.url "state") = true
        · rw [if_pos h2]
          exact ⟨[], by simp⟩
        · rw [if_neg h2]
          cases hconn : recGet m.mcpConnections (callbackServerId u) with
          | none => exact ⟨[], by simp⟩
          | some conn =>
              simp only []
              by_cases h3 : conn.connectionState ≠ ConnState.authenticating
              · rw [if_pos h3]
                exact ⟨[], by simp⟩
              · rw [if_neg h3]
                cases hap : conn.options.transport.authProvider with
                | none => exact ⟨[], by simp⟩
                | some ap =>
                    simp only []
                    rw [finalizeReconnect_fst]
                    exact connect_callbackUrls_appendOnly initFn "" _ _ _

/-- Claim C7: `connect` registers the connection under
`opts.reconnect.id` when given, else under the supplied fresh token
(`nanoid(8)`, modelled by `genId`); when the supplied auth provider
reports an `authUrl` and a `redirectUrl` after `init`, the redirect URL
is appended to the callback registry and `{id, authUrl, clientId}` is
resolved, otherwise `{id}`; and the callback URL registry is append-only
across every state-changing operation of the manager. -/
theorem claim_C7 (initFn : InitFn) (genId : String) (m : MCPClientManager)
    (url : String) (opts : ConnectOptions) :
    (recGet (m.connect initFn genId url opts).1.mcpConnections
        (connectId opts genId)).isSome = true
  ∧ (∀ res : ConnectResult,
       (m.connect initFn genId url opts).2 = Except.ok res →
       res.id = connectId opts genId)
  ∧ (∀ (res : ConnectResult) (ap : AuthProvider) (au ru : String)
       (s : ConnState) (tls : List Tool) (ps : List Prompt) (rs : List Resource)
       (rts : List ResourceTemplate),
       initFn url (opts.reconnect.bind (fun r => r.oauthCode)) =
         InitResult.ok s tls ps rs rts →
       (m.connect initFn genId url opts).2 = Except.ok res →
       (connectTransport opts (connectId opts genId)).authProvider = some ap →
       ap.authUrl = some au → au ≠ "" → ap.redirectUrl = some ru →
       res = { id := connectId opts genId, authUrl := some au,
               clientId := ap.clientId }
       ∧ (m.connect initFn genId url opts).1._callbackUrls =
           m._callbackUrls ++ [ru])
  ∧ (∀ res : ConnectResult,
       (m.connect initFn genId url opts).2 = Except.ok res →
       (¬ ∃ (ap : AuthProvider) (au ru : String),
           (connectTransport opts (connectId opts genId)).authProvider = some ap ∧
           ap.authUrl = some au ∧ au ≠ "" ∧ ap.redirectUrl = some ru) →
       res = { id := connectId opts genId }
       ∧ (m.connect initFn genId url opts).1._callbackUrls = m._callbackUrls)
  ∧ (∃ t, (m.connect initFn genId url opts).1._callbackUrls = m._callbackUrls ++ t)
  ∧ (∀ req : Request, ∃ t,
       (m.handleCallbackRequest initFn req).1._callbackUrls = m._callbackUrls ++ t)
  ∧ (∀ (cid : String) (m' : MCPClientManager) (cl : MCPClient),
       m.closeConnection cid = Except.ok (m', cl) →
       m'._callbackUrls = m._callbackUrls)
  ∧ (MCPClientManager.closeAllConnections m)._callbackUrls = m._callbackUrls := by
  refine ⟨?_, ?_, ?_, ?_, ?_, ?_, ?_, ?_⟩
  · rw [connect_mcpConnections, recGet_setEntry_self]
    rfl
  · intro res hres
    cases hinit : initFn url (opts.reconnect.bind (fun r => r.oauthCode)) with
    | err msg s =>
        rw [connect_err_snd initFn genId m url opts hinit] at hres
        cases hres
    | ok s tls ps rs rts =>
        obtain ⟨res', hres', hid⟩ := connect_ok_snd initFn genId m url opts hinit
        rw [hres'] at hres
        cases hres
        exact hid
  · intro res ap au ru s tls ps rs rts hinit hres hap hau hne hru
    obtain ⟨h2, h1⟩ := connect_ok_auth initFn genId m url opts hinit hap hau hne hru
    rw [h2] at hres
    cases hres
    exact ⟨rfl, h1⟩
  · intro res hres hno
    cases hinit : initFn url (opts.reconnect.bind (fun r => r.oauthCode)) with
    | err msg s =>
        rw [connect_err_snd initFn genId m url opts hinit] at hres
        cases hres
    | ok s tls ps rs rts =>
        obtain ⟨h2, h1⟩ := connect_ok_noauth initFn genId m url opts hinit hno
        rw [h2] at hres
        cases hres
        exact ⟨rfl, h1⟩
  · exact connect_callbackUrls_appendOnly initFn genId m url opts
  · intro req
    exact handleCallback_callbackUrls_appendOnly initFn m req
  · intro cid m' cl hok
    cases hr : recGet m.mcpConnections cid with
    | none => simp [MCPClientManager.closeConnection, hr] at hok
    | some conn =>
        simp [MCPClientManager.closeConnection, hr] at hok
        rw [← hok.1]
  · rfl

/-- A concrete OAuth provider, connect options, init oracle and manager
used by witness scenarios (mirroring the repository's MCP client tests). -/
def apFixture : AuthProvider :=
  { clientId := some "C", authUrl := some "http://auth",
    redirectUrl := some "http://h/callback/S" }

/-- Connect options reusing the reconnect id `"S"` with `apFixture`. -/
def optsFixture : ConnectOptions :=
  { reconnect := some { id := "S" },
    transport := { authProvider := some apFixture } }

/-- An init oracle whose runs always resolve in the `ready` state. -/
def initReadyFixture : InitFn :=
  fun _ _ => InitResult.ok ConnState.ready [] [] [] []

/-- A fresh manager for witness scenarios. -/
def mgrFixture : MCPClientManager := { _name := "n", _version := "v" }

/-- Claim C7, witnessed: a reconnect id is reused, an OAuth-providing
connect appends its redirect URL and resolves `{id, authUrl, clientId}`. -/
theorem claim_C7_witness :
    initReadyFixture "http://h"
        (optsFixture.reconnect.bind (fun r => r.oauthCode)) =
      InitResult.ok ConnState.ready [] [] [] []
    ∧ (connectTransport optsFixture (connectId optsFixture "ignored")).authProvider =
        some { apFixture with serverId := "S" }
    ∧ (mgrFixture.connect initReadyFixture "ignored" "http://h" optsFixture).2 =
      Except.ok { id := "S", authUrl := some "http://auth", clientId := some "C" }
    ∧ (mgrFixture.connect initReadyFixture "ignored" "http://h" optsFixture).1._callbackUrls =
      mgrFixture._callbackUrls ++ ["http://h/callback/S"] := by
  refine ⟨rfl, rfl, ?_⟩
  have h := (claim_C7 initReadyFixture "ignored" mgrFixture "http://h" optsFixture).2.2.1
  have h2 := h { id := "S", authUrl := some "http://auth", clientId := some "C" }
      { apFixture with serverId := "S" }
      "http://auth" "http://h/callback/S" ConnState.ready [] [] [] []
      rfl rfl rfl rfl (by decide) rfl
  exact ⟨h2.1.symm ▸ rfl, h2.2⟩

/-- A connection awaiting authentication, bound to `apFixture`. -/
def connAuthFixture : MCPClientConnection :=
  { url := "http://h", connectionState := ConnState.authenticating,
    options := { transport := { authProvider := some apFixture } } }

/-- A manager holding `connAuthFixture` under id `"S"` with its callback
URL registered. -/
def mgrCbFixture : MCPClientManager :=
  { _name := "n", _version := "v",
    mcpConnections := [("S", connAuthFixture)],
    _callbackUrls := ["http://h/callback/S"] }

/-- Claim C2 as stated is false: with a registered callback URL whose
server id has no registered connection, the request carries `code` and
`state` and the (nonexistent) bound connection is not in the
`authenticating` state, yet the diagnostic is `"Could not find serverId:
S"` — a sixth precondition absent from the claim's cascade — rather than
the claimed authenticating-state diagnostic. -/
theorem claim_C2_counterexample :
    (MCPClientManager.handleCallbackRequest initReadyFixture
        { _name := "n", _version := "v", _callbackUrls := ["http://h/callback/S"] }
        { url := "http://h/callback/S?code=c&state=x" }).2
      = Except.error ("Could not find serverId: " ++ "S")
    ∧ ("Could not find serverId: " ++ "S") ≠ noAuthStateMsg := by
  refine ⟨rfl, by decide⟩

/-- Claim C2 (amended): the callback handler fails with the exact
diagnostic of the first violated precondition, in order: no registered
callback URL prefixes the request URL; the `code` query parameter is
absent or empty; the `state` query parameter is absent or empty; no
connection is registered under the server id of the matched callback URL
(diagnostic `"Could not find serverId: <id>"`); the bound connection is
not in the `authenticating` state; the bound connection's transport has
no `authProvider`. -/
theorem claim_C2 (initFn : InitFn) (m : MCPClientManager) (req : Request) :
    (m._callbackUrls.find? (fun u => strStartsWith req.url u) = none →
       m.handleCallbackRequest initFn req = (m, Except.error (noMatchMsg req.url)))
  ∧ (∀ u, m._callbackUrls.find? (fun u => strStartsWith req.url u) = some u →
       optFalsy (searchParamGet req.url "code") = true →
       m.handleCallbackRequest initFn req =
         (m, Except.error "Unauthorized: no code provided"))
  ∧ (∀ u, m._callbackUrls.find? (fun u => strStartsWith req.url u) = some u →
       optFalsy (searchParamGet req.url "code") = false →
       optFalsy (searchParamGet req.url "state") = true →
       m.handleCallbackRequest initFn req =
         (m, Except.error "Unauthorized: no state provided"))
  ∧ (∀ u, m._callbackUrls.find? (fun u => strStartsWith req.url u) = some u →
       optFalsy (searchParamGet req.url "code") = false →
       optFalsy (searchParamGet req.url "state") = false →
       recGet m.mcpConnections (callbackServerId u) = none →
       m.handleCallbackRequest initFn req =
         (m, Except.error ("Could not find serverId: " ++ callbackServerId u)))
  ∧ (∀ u conn, m._callbackUrls.find? (fun u => strStartsWith req.url u) = some u →
       optFalsy (searchParamGet req.url "code") = false →
       optFalsy (searchParamGet req.url "state") = false →
       recGet m.mcpConnections (callbackServerId u) = some conn →
       conn.connectionState ≠ ConnState.authenticating →
       m.handleCallbackRequest initFn req = (m, Except.error noAuthStateMsg))
  ∧ (∀ u conn, m._callbackUrls.find? (fun u => strStartsWith req.url u) = some u →
       optFalsy (searchParamGet req.url "code") = false →
       optFalsy (searchParamGet req.url "state") = false →
       recGet m.mcpConnections (callbackServerId u) = some conn →
       conn.connectionState = ConnState.authenticating →
       conn.options.transport.authProvider = none →
       m.handleCallbackRequest initFn req =
         (m, Except.error
           "Trying to finalize authentication for a server connection without an authProvider")) := by
  refine ⟨?_, ?_, ?_, ?_, ?_, ?_⟩
  · intro hfind
    simp [MCPClientManager.handleCallbackRequest, hfind]
  · intro u hfind hcode
    simp [MCPClientManager.handleCallbackRequest, hfind, hcode]
  · intro u hfind hcode hstate
    simp [MCPClientManager.handleCallbackRequest, hfind, hcode, hstate]
  · intro u hfind hcode hstate hconn
    simp [MCPClientManager.handleCallbackRequest, hfind, hcode, hstate, hconn]
  · intro u conn hfind hcode hstate hconn hauth
    simp [MCPClientManager.handleCallbackRequest, hfind, hcode, hstate, hconn, hauth]
  · intro u conn hfind hcode hstate hconn hauth hap
    simp [MCPClientManager.handleCallbackRequest, hfind, hcode, hstate, hconn,
          hauth, hap]

/-- Claim C2 (amended), witnessed on two cascade stages: a request without
a `code` parameter, and a bound connection that is not authenticating. -/
theorem claim_C2_witness :
    mgrCbFixture._callbackUrls.find?
        (fun u => strStartsWith "http://h/callback/S?state=x" u) =
      some "http://h/callback/S"
    ∧ optFalsy (searchParamGet "http://h/callback/S?state=x" "code") = true
    ∧ MCPClientManager.handleCallbackRequest initReadyFixture mgrCbFixture
        { url := "http://h/callback/S?state=x" } =
      (mgrCbFixture, Except.error "Unauthorized: no code provided") := by
  refine ⟨rfl, rfl, ?_⟩
  exact (claim_C2 initReadyFixture mgrCbFixture
    { url := "http://h/callback/S?state=x" }).2.1 "http://h/callback/S" rfl rfl

/-- The auth provider as mutated by the callback handler before the
reconnect: `clientId = state`, `serverId = serverId`. -/
def reconnectProvider (ap : AuthProvider) (stVal sid : String) : AuthProvider :=
  { ap with clientId := some stVal, serverId := sid }

/-- The bound connection with its provider mutated by the callback
handler. -/
def reconnectConn (conn : MCPClientConnection) (ap : AuthProvider)
    (stVal sid : String) : MCPClientConnection :=
  { conn with options :=
      { transport := { authProvider := some (reconnectProvider ap stVal sid) } } }

/-- The manager state just before the callback handler's reconnect. -/
def reconnectMgr (m : MCPClientManager) (conn : MCPClientConnection)
    (ap : AuthProvider) (stVal sid : String) : MCPClientManager :=
  { m with mcpConnections :=
      setEntry m.mcpConnections sid (reconnectConn conn ap stVal sid) }

/-- The options of the callback handler's reconnect call:
`{reconnect: {id, oauthClientId: state, oauthCode: code}, ...previousOptions}`. -/
def reconnectOpts (ap : AuthProvider) (stVal codeVal sid : String) :
    ConnectOptions :=
  { reconnect :=
      some { id := sid, oauthClientId := some stVal, oauthCode := some codeVal },
    transport := { authProvider := some (reconnectProvider ap stVal sid) } }

/-- Claim C3: once `handleCallbackRequest`'s preconditions pass, it
resolves `{serverId}` only when the reconnect leaves the bound connection
in state `ready`, and any other completion state makes the call fail.
The hypothesis `hinit` is the contract of the external
`MCPClientConnection.init`, modelled from the spec: a run that resolves
leaves the connection `ready` or (awaiting the OAuth round-trip)
`authenticating`; failing runs throw. -/
theorem claim_C3 (initFn : InitFn) (m : MCPClientManager) (req : Request)
    (u codeVal stVal : String) (conn : MCPClientConnection) (ap : AuthProvider)
    (hfind : m._callbackUrls.find? (fun v => strStartsWith req.url v) = some u)
    (hcode : searchParamGet req.url "code" = some codeVal) (hcne : codeVal ≠ "")
    (hst : searchParamGet req.url "state" = some stVal) (hsne : stVal ≠ "")
    (hconn : recGet m.mcpConnections (callbackServerId u) = some conn)
    (hauth : conn.connectionState = ConnState.authenticating)
    (hap : conn.options.transport.authProvider = some ap)
    (hinit : ∀ (u2 : String) (oc : Option String) (s : ConnState)
       (tls : List Tool) (ps : List Prompt) (rs : List Resource)
       (rts : List ResourceTemplate),
       initFn u2 oc = InitResult.ok s tls ps rs rts →
       s = ConnState.ready ∨ s = ConnState.authenticating) :
    (∀ r : CallbackResult, (m.handleCallbackRequest initFn req).2 = Except.ok r →
       ((recGet (m.handleCallbackRequest initFn req).1.mcpConnections
           (callbackServerId u)).map (fun c => c.connectionState)) =
         some ConnState.ready
       ∧ r = { serverId := callbackServerId u })
    ∧ (((recGet (m.handleCallbackRequest initFn req).1.mcpConnections
           (callbackServerId u)).map (fun c => c.connectionState)) ≠
         some ConnState.ready →
        ∃ e, (m.handleCallbackRequest initFn req).2 = Except.error e) := by
  have hred : m.handleCallbackRequest initFn req =
      finalizeReconnect
        ((reconnectMgr m conn ap stVal (callbackServerId u)).connect initFn ""
          conn.url (reconnectOpts ap stVal codeVal (callbackServerId u)))
        (callbackServerId u) := by
    simp [MCPClientManager.handleCallbackRequest, hfind, hcode, hcne, hst, hsne,
          hconn, hauth, hap, optFalsy, reconnectMgr, reconnectConn,
          reconnectProvider, reconnectOpts]
  rw [hred]
  cases hi : initFn conn.url (some codeVal) with
  | err msg s =>
      have h2 : initFn conn.url
          ((reconnectOpts ap stVal codeVal (callbackServerId u)).reconnect.bind
            (fun r => r.oauthCode)) = InitResult.err msg s := hi
      have hsnd := connect_err_snd initFn ""
        (reconnectMgr m conn ap stVal (callbackServerId u)) conn.url
        (reconnectOpts ap stVal codeVal (callbackServerId u)) h2
      constructor
      · intro r hr
        unfold finalizeReconnect at hr
        rw [hsnd] at hr
        cases hr
      · intro _
        refine ⟨msg, ?_⟩
        unfold finalizeReconnect
        rw [hsnd]
  | ok s tls ps rs rts =>
      have h2 : initFn conn.url
          ((reconnectOpts ap stVal codeVal (callbackServerId u)).reconnect.bind
            (fun r => r.oauthCode)) = InitResult.ok s tls ps rs rts := hi
      have hconns := connect_mcpConnections initFn ""
        (reconnectMgr m conn ap stVal (callbackServerId u)) conn.url
        (reconnectOpts ap stVal codeVal (callbackServerId u))
      obtain ⟨res, hres, _⟩ := connect_ok_snd initFn ""
        (reconnectMgr m conn ap stVal (callbackServerId u)) conn.url
        (reconnectOpts ap stVal codeVal (callbackServerId u)) h2
      have hstored : recGet
          ((reconnectMgr m conn ap stVal (callbackServerId u)).connect initFn ""
            conn.url (reconnectOpts ap stVal codeVal (callbackServerId u))).1.mcpConnections
          (callbackServerId u)
        = some (connectStoredConn conn.url
            (reconnectOpts ap stVal codeVal (callbackServerId u))
            (callbackServerId u) (InitResult.ok s tls ps rs rts)) := by
        rw [hconns, h2]
        exact recGet_setEntry_self _ _ _
      rcases hinit conn.url (some codeVal) s tls ps rs rts hi with hs | hs
      · -- init left the connection ready: resolve {serverId}
        subst hs
        constructor
        · intro r hr
          refine ⟨?_, ?_⟩
          · rw [finalizeReconnect_fst, hstored]
            rfl
          · unfold finalizeReconnect at hr
            rw [hres, hstored] at hr
            simp [connectStoredConn] at hr
            exact hr.symm
        · intro hne
          exfalso
          apply hne
          rw [finalizeReconnect_fst, hstored]
          rfl
      · -- init left the connection authenticating: fail
        subst hs
        constructor
        · intro r hr
          unfold finalizeReconnect at hr
          rw [hres, hstored] at hr
          simp [connectStoredConn] at hr
        · intro _
          refine ⟨"Failed to authenticate: client failed to initialize", ?_⟩
          unfold finalizeReconnect
          rw [hres, hstored]
          simp [connectStoredConn]

/-- Claim C3, witnessed on the successful OAuth callback scenario of the
repository tests: init resolves `ready` and the callback resolves
`{serverId}`. -/
theorem claim_C3_witness :
    mgrCbFixture._callbackUrls.find?
        (fun v => strStartsWith "http://h/callback/S?code=c&state=x" v) =
      some "http://h/callback/S"
    ∧ searchParamGet "http://h/callback/S?code=c&state=x" "code" = some "c"
    ∧ ("c" : String) ≠ ""
    ∧ searchParamGet "http://h/callback/S?code=c&state=x" "state" = some "x"
    ∧ ("x" : String) ≠ ""
    ∧ recGet mgrCbFixture.mcpConnections (callbackServerId "http://h/callback/S") =
        some connAuthFixture
    ∧ connAuthFixture.connectionState = ConnState.authenticating
    ∧ connAuthFixture.options.transport.authProvider = some apFixture
    ∧ ((recGet (MCPClientManager.handleCallbackRequest initReadyFixture mgrCbFixture
          { url := "http://h/callback/S?code=c&state=x" }).1.mcpConnections
          (callbackServerId "http://h/callback/S")).map (fun c => c.connectionState))
        = some ConnState.ready := by
  refine ⟨rfl, rfl, by decide, rfl, by decide, rfl, rfl, rfl, ?_⟩
  have h := (claim_C3 initReadyFixture mgrCbFixture
      { url := "http://h/callback/S?code=c&state=x" }
      "http://h/callback/S" "c" "x" connAuthFixture apFixture
      rfl rfl (by decide) rfl (by decide) rfl rfl rfl
      (fun u2 oc s tls ps rs rts hok => by
        cases hok
        exact Or.inl rfl)).1
  exact (h { serverId := callbackServerId "http://h/callback/S" } rfl).1

end Agents
